import Mathlib

/-!
Verification of the `mentat` safety core (pattern engine, approval stores,
console approval manager) against its natural-language specification.

The definitions below are a shallow embedding of the Python modules
`src/mentat/safety/patterns.py`, `src/mentat/safety/validator.py` and
`src/mentat/safety/approvals.py`.  Pure functions become Lean functions and
the stateful store/manager methods become explicit state-passing functions.
String primitives (strip, lower, containment) are implemented over
character lists so that every definition evaluates by kernel reduction.
Matching of a command against a single pattern string is Python's
`re.match` / `fnmatch.fnmatch`; the engine-level theorems are proved for an
arbitrary single-pattern matcher, and the concrete matcher `matchesPattern`
below embeds the library semantics on the fragment of patterns used in the
concrete scenarios (globs built from literals, `*` and `?`, and regexes
that are a literal with optional `^` / `$` anchors).
-/

namespace Mentat

/-- Python's `\s` (and the `str.strip` whitespace set) on ASCII input. -/
def pySpace (c : Char) : Bool :=
  c == ' ' || c == '\t' || c == '\n' || c == '\r' || c == '\x0b' || c == '\x0c'

/-- Is the first list a prefix of the second? -/
def isPrefixOfC : List Char → List Char → Bool
  | [], _ => true
  | _ :: _, [] => false
  | a :: as, b :: bs => a == b && isPrefixOfC as bs

/-- Does `sub` occur as a contiguous substring of `s`?  This is the
semantics of Python's `sub in s`. -/
def containsSubC : List Char → List Char → Bool
  | s, sub =>
    match s with
    | [] => sub.isEmpty
    | _ :: rest => isPrefixOfC sub s || containsSubC rest sub

/-- Python's `sub in s` on strings. -/
def containsSub (s sub : String) : Bool :=
  containsSubC s.toList sub.toList

/-- Drop leading whitespace. -/
def dropLeadingWs : List Char → List Char
  | [] => []
  | c :: cs => if pySpace c then dropLeadingWs cs else c :: cs

/-- Python's `str.strip()`: remove leading and trailing whitespace. -/
def pyStrip (s : String) : String :=
  String.mk ((dropLeadingWs ((dropLeadingWs s.toList).reverse)).reverse)

/-- Python's `str.lower()` on ASCII input. -/
def pyLower (s : String) : String :=
  String.mk (s.toList.map Char.toLower)

/-- Does the string start with a caret (`pattern.startswith("^")`)? -/
def strStartsWithCaret (s : String) : Bool :=
  match s.toList with
  | '^' :: _ => true
  | _ => false

/-- Does the string end with a dollar (`pattern.endswith("$")`)? -/
def strEndsWithDollar (s : String) : Bool :=
  match s.toList.getLast? with
  | some '$' => true
  | _ => false

/-- `ValidationResult` from `validator.py`. -/
inductive ValidationResult where
  | allowed
  | denied
  | requires_approval
deriving DecidableEq

/-- `SafetyPattern` dataclass from `validator.py`. -/
structure SafetyPattern where
  pattern : String
  is_allow : Bool
  description : String
deriving DecidableEq

/-- `CommandValidation` dataclass from `validator.py` (the `reason` alias
field is always defaulted by `patterns.py` and is omitted). -/
structure CommandValidation where
  command : String
  result : ValidationResult
  matched_pattern : Option SafetyPattern
  risk_level : String
  explanation : String
deriving DecidableEq

/-- The rule-set state of `SafetyPatternEngine` (`__init__` starts both
lists empty; `add_pattern` appends). -/
structure SafetyPatternEngine where
  allow_patterns : List SafetyPattern
  deny_patterns : List SafetyPattern
deriving DecidableEq

/-- `SafetyPatternEngine.add_pattern`. -/
def SafetyPatternEngine.add_pattern (e : SafetyPatternEngine) (p : SafetyPattern) :
    SafetyPatternEngine :=
  if p.is_allow then
    SafetyPatternEngine.mk (e.allow_patterns ++ [p]) e.deny_patterns
  else
    SafetyPatternEngine.mk e.allow_patterns (e.deny_patterns ++ [p])

/-- The type of a single-pattern matcher: the semantics of
`SafetyPatternEngine._matches_pattern`, taking the command and then the
pattern text. -/
abbrev Matcher := String → String → Bool

/-- The characters treated as regex markers by
`SafetyPatternEngine._is_regex_pattern` (the Python string literal
contains both braces; they are written here as escapes). -/
def regexChars : String := "()[]\x7b\x7d+?\\"

/-- `SafetyPatternEngine._is_regex_pattern`: a pattern is regex-like when
it begins with a caret, ends with a dollar, or contains any regex
metacharacter. -/
def isRegexPattern (pattern : String) : Bool :=
  strStartsWithCaret pattern || strEndsWithDollar pattern ||
    regexChars.toList.any (fun c => pattern.toList.contains c)

/-- Fuel-indexed shell-glob matcher kernel: `*` matches any sequence, `?`
any single character, every other character itself.  This is the
semantics of Python's `fnmatch.fnmatch` (on a case-sensitive file system)
for patterns that contain no `[...]` character class; every glob pattern
appearing in a concrete scenario below is in that fragment.  The fuel is
always given as more than the sum of both lengths, which every recursive
call decreases. -/
def globMatchAux : Nat → List Char → List Char → Bool
  | 0, _, _ => false
  | _ + 1, [], cs => cs.isEmpty
  | n + 1, '*' :: ps, cs =>
    globMatchAux n ps cs ||
      (match cs with
       | [] => false
       | _ :: cs2 => globMatchAux n ('*' :: ps) cs2)
  | n + 1, '?' :: ps, cs =>
    (match cs with
     | [] => false
     | _ :: cs2 => globMatchAux n ps cs2)
  | n + 1, p :: ps, cs =>
    (match cs with
     | [] => false
     | c :: cs2 => p == c && globMatchAux n ps cs2)

/-- `fnmatch.fnmatch name pattern` on the class-free glob fragment. -/
def globMatch (name pattern : String) : Bool :=
  globMatchAux (pattern.length + name.length + 1) pattern.toList name.toList

/-- Python `re.match pattern command` for patterns that are a literal
with an optional leading `^` and optional trailing `$`: `re.match`
anchors at the start, so without `$` the literal must be a prefix of the
command, and with `$` it must equal the whole command.  Every
regex-classified pattern used in a concrete scenario below is in this
fragment (and is a valid regex, so the `re.error` fallback of
`_matches_pattern` never fires on it). -/
def reMatchSimple (pattern command : String) : Bool :=
  let body := if strStartsWithCaret pattern then pattern.toList.drop 1
              else pattern.toList
  if strEndsWithDollar (String.mk body) then body.dropLast == command.toList
  else isPrefixOfC body command.toList

/-- `SafetyPatternEngine._matches_pattern` on the fragment described at
`globMatch` and `reMatchSimple`. -/
def matchesPattern (command pattern : String) : Bool :=
  if isRegexPattern pattern then reMatchSimple pattern command
  else globMatch command pattern

/-- Keyword list from `_assess_risk_level` (critical tier). -/
def criticalKeywords : List String :=
  ["rm -rf", "format", "dd if=", "sudo rm", "del /s", "rmdir /s",
   "> /dev/", "chmod 777", "chown", "mkfs"]

/-- Keyword list from `_assess_risk_level` (high tier). -/
def highRiskKeywords : List String :=
  ["sudo", "rm", "del", "rmdir", "chmod", "mv"]

/-- Keyword list from `_assess_risk_level` (medium tier). -/
def mediumRiskKeywords : List String :=
  ["git reset", "git clean", "npm install", "pip install"]

/-- `SafetyPatternEngine._assess_risk_level`: a keyword ladder over the
lowercased pattern text of the matched rule. -/
def assessRiskLevel (p : SafetyPattern) : String :=
  let t := pyLower p.pattern
  if criticalKeywords.any (fun k => containsSub t k) then "critical"
  else if highRiskKeywords.any (fun k => containsSub t k) then "high"
  else if mediumRiskKeywords.any (fun k => containsSub t k) then "medium"
  else "low"

/-- Token alphabet for the small regular-expression fragment used by
`_assess_command_risk`: literal characters, `\s+`, `\s*` and `.*`. -/
inductive RTok where
  | lit : Char → RTok
  | wsPlus : RTok
  | wsStar : RTok
  | anyStar : RTok
deriving DecidableEq

/-- Fuel-indexed matcher for the `RTok` fragment, matching a prefix of
the character list (an empty token list accepts anywhere).  Every
recursive call decreases the combined length of tokens and characters,
and the fuel is always supplied as more than that sum. -/
def rmatchAux : Nat → List RTok → List Char → Bool
  | 0, _, _ => false
  | _ + 1, [], _ => true
  | n + 1, RTok.lit a :: ts, cs =>
    (match cs with
     | [] => false
     | c :: cs2 => a == c && rmatchAux n ts cs2)
  | n + 1, RTok.wsPlus :: ts, cs =>
    (match cs with
     | [] => false
     | c :: cs2 => pySpace c && rmatchAux n (RTok.wsStar :: ts) cs2)
  | n + 1, RTok.wsStar :: ts, cs =>
    rmatchAux n ts cs ||
      (match cs with
       | [] => false
       | c :: cs2 => pySpace c && rmatchAux n (RTok.wsStar :: ts) cs2)
  | n + 1, RTok.anyStar :: ts, cs =>
    rmatchAux n ts cs ||
      (match cs with
       | [] => false
       | _ :: cs2 => rmatchAux n (RTok.anyStar :: ts) cs2)

/-- `re.search` over the `RTok` fragment: try a match at every start
position. -/
def reSearchAux : Nat → List RTok → List Char → Bool
  | 0, _, _ => false
  | n + 1, ts, cs =>
    rmatchAux (ts.length + cs.length + 1) ts cs ||
      (match cs with
       | [] => false
       | _ :: cs2 => reSearchAux n ts cs2)

/-- Compile one of the `_assess_command_risk` regex literals into the
`RTok` fragment (`\s+`, `\s*`, `.*`, escaped characters, plain
literals). -/
def compileTokens : List Char → List RTok
  | [] => []
  | '\\' :: 's' :: '+' :: rest => RTok.wsPlus :: compileTokens rest
  | '\\' :: 's' :: '*' :: rest => RTok.wsStar :: compileTokens rest
  | '.' :: '*' :: rest => RTok.anyStar :: compileTokens rest
  | '\\' :: c :: rest => RTok.lit c :: compileTokens rest
  | c :: rest => RTok.lit c :: compileTokens rest

/-- `re.search pattern s` for the `_assess_command_risk` pattern
literals. -/
def reSearchP (pattern s : String) : Bool :=
  reSearchAux (s.length + 1) (compileTokens pattern.toList) s.toList

/-- Regex list from `_assess_command_risk` (critical tier). -/
def criticalCmdPatterns : List String :=
  ["rm\\s+.*-rf", "sudo\\s+rm", "format\\s+", "dd\\s+if=",
   "del\\s+.*\\/s", "rmdir\\s+.*\\/s", ">\\s*/dev/", "mkfs\\."]

/-- Regex list from `_assess_command_risk` (high tier). -/
def highCmdPatterns : List String :=
  ["sudo\\s+", "rm\\s+", "del\\s+", "rmdir\\s+", "chmod\\s+",
   "chown\\s+", "mv\\s+.*\\s+/", "cp\\s+.*>\\s*/"]

/-- Regex list from `_assess_command_risk` (medium tier). -/
def mediumCmdPatterns : List String :=
  ["git\\s+reset", "git\\s+clean", "npm\\s+install", "pip\\s+install",
   "curl.*\\|\\s*sh", "wget.*\\|\\s*sh"]

/-- `SafetyPatternEngine._assess_command_risk`: a regex ladder over the
lowercased raw command text. -/
def assessCommandRisk (command : String) : String :=
  let cl := pyLower command
  if criticalCmdPatterns.any (fun p => reSearchP p cl) then "critical"
  else if highCmdPatterns.any (fun p => reSearchP p cl) then "high"
  else if mediumCmdPatterns.any (fun p => reSearchP p cl) then "medium"
  else "low"

/-- `SafetyPatternEngine._find_matching_pattern`: first pattern in the
list matching the command. -/
def findMatchingPattern (m : Matcher) (command : String)
    (patterns : List SafetyPattern) : Option SafetyPattern :=
  patterns.find? (fun p => m command p.pattern)

/-- `SafetyPatternEngine._choose_deny_pattern`: with matches from both
partitions, prefer the regex match exactly when the command contains
`--`; otherwise return whichever match exists. -/
def chooseDenyPattern (command : String)
    (gMatch rMatch : Option SafetyPattern) : Option SafetyPattern :=
  match gMatch, rMatch with
  | some g, some r => if containsSub command "--" then some r else some g
  | some g, none => some g
  | none, some r => some r
  | none, none => none

/-- The `CommandValidation` built by `_check_deny_patterns` for a chosen
deny pattern. -/
def denyValidation (command : String) (p : SafetyPattern) : CommandValidation :=
  CommandValidation.mk command ValidationResult.denied (some p)
    (assessRiskLevel p)
    ("Command matches deny pattern: " ++ p.description)

/-- `SafetyPatternEngine._check_deny_patterns`: the deny list is split by
whether the pattern text starts with a caret, the first match of each
part is found, and `_choose_deny_pattern` picks between them. -/
def checkDenyPatterns (m : Matcher) (e : SafetyPatternEngine)
    (command : String) : Option CommandValidation :=
  let globDenies := e.deny_patterns.filter (fun p => !(strStartsWithCaret p.pattern))
  let regexDenies := e.deny_patterns.filter (fun p => strStartsWithCaret p.pattern)
  let matchedGlob := findMatchingPattern m command globDenies
  let matchedRegex := findMatchingPattern m command regexDenies
  (chooseDenyPattern command matchedGlob matchedRegex).map (denyValidation command)

/-- The `CommandValidation` built by `_check_allow_patterns` for the
first matching allow pattern. -/
def allowValidation (command : String) (p : SafetyPattern) : CommandValidation :=
  CommandValidation.mk command ValidationResult.allowed (some p) "low"
    ("Command matches allow pattern: " ++ p.description)

/-- `SafetyPatternEngine._check_allow_patterns`. -/
def checkAllowPatterns (m : Matcher) (e : SafetyPatternEngine)
    (command : String) : Option CommandValidation :=
  (e.allow_patterns.find? (fun p => m command p.pattern)).map (allowValidation command)

/-- `SafetyPatternEngine._create_approval_required_result`. -/
def createApprovalRequiredResult (command : String) : CommandValidation :=
  let risk := assessCommandRisk command
  CommandValidation.mk command ValidationResult.requires_approval none risk
    ("Command not in allow list (risk: " ++ risk ++ ")")

/-- `SafetyPatternEngine.validate_command`: trim, deny check, allow
check, approval-required fallback. -/
def validate_command (m : Matcher) (e : SafetyPatternEngine)
    (command : String) : CommandValidation :=
  let c := pyStrip command
  match checkDenyPatterns m e c with
  | some v => v
  | none =>
    match checkAllowPatterns m e c with
    | some v => v
    | none => createApprovalRequiredResult c

end Mentat

namespace Mentat

/-- If either partition produced a match, `_choose_deny_pattern` returns
a match. -/
theorem chooseDenyPattern_isSome (command : String)
    (gMatch rMatch : Option SafetyPattern)
    (h : gMatch.isSome ∨ rMatch.isSome) :
    (chooseDenyPattern command gMatch rMatch).isSome := by
  cases gMatch <;> cases rMatch <;>
    simp [chooseDenyPattern] at h ⊢
  split <;> simp

/-- If some deny pattern matches, `_check_deny_patterns` returns a
denied validation. -/
theorem checkDenyPatterns_of_match (m : Matcher) (e : SafetyPatternEngine)
    (c : String) (h : ∃ p ∈ e.deny_patterns, m c p.pattern = true) :
    ∃ q, checkDenyPatterns m e c = some (denyValidation c q) := by
  obtain ⟨p, hp, hm⟩ := h
  have hsome : (chooseDenyPattern c
      (findMatchingPattern m c (e.deny_patterns.filter (fun p => !(strStartsWithCaret p.pattern))))
      (findMatchingPattern m c (e.deny_patterns.filter (fun p => strStartsWithCaret p.pattern)))).isSome := by
    apply chooseDenyPattern_isSome
    by_cases hs : strStartsWithCaret p.pattern
    · right
      simp only [findMatchingPattern, List.find?_isSome]
      exact ⟨p, List.mem_filter.2 ⟨hp, hs⟩, hm⟩
    · left
      simp only [findMatchingPattern, List.find?_isSome]
      exact ⟨p, List.mem_filter.2 ⟨hp, by simp [hs]⟩, hm⟩
  obtain ⟨q, hq⟩ := Option.isSome_iff_exists.1 hsome
  exact ⟨q, by simp [checkDenyPatterns, hq]⟩

/-- C1: For every matcher semantics, rule set and command, if at least
one deny rule matches the whitespace-trimmed command, `validate_command`
returns a validation whose verdict is `Denied` — no assumption at all is
made about the allow rules, so this holds in particular when one or more
allow rules also match the same command. -/
theorem deny_match_forces_denied (m : Matcher) (e : SafetyPatternEngine)
    (command : String)
    (h : ∃ p ∈ e.deny_patterns, m (pyStrip command) p.pattern = true) :
    (validate_command m e command).result = ValidationResult.denied := by
  obtain ⟨q, hq⟩ := checkDenyPatterns_of_match m e (pyStrip command) h
  simp [validate_command, hq, denyValidation]

/-- Engine for the C1 witness: the allow rule also matches the denied
command. -/
def engineC1 : SafetyPatternEngine :=
  SafetyPatternEngine.mk
    [SafetyPattern.mk "rm -rf /" true "allow exact"]
    [SafetyPattern.mk "rm *" false "deny rm"]

/-- Witness for C1 at a concrete input: both the allow rule `rm -rf /`
and the deny rule `rm *` match `rm -rf /`, and the verdict is Denied. -/
theorem deny_match_forces_denied_witness :
    (∃ p ∈ engineC1.deny_patterns,
        matchesPattern (pyStrip "rm -rf /") p.pattern = true) ∧
      matchesPattern (pyStrip "rm -rf /") "rm -rf /" = true ∧
      (validate_command matchesPattern engineC1 "rm -rf /").result =
        ValidationResult.denied :=
  ⟨by decide, by decide,
    deny_match_forces_denied matchesPattern engineC1 "rm -rf /" (by decide)⟩

/-- C2: For every matcher semantics, rule set and command, if no deny
rule and no allow rule matches the whitespace-trimmed command,
`validate_command` returns the verdict `RequiresApproval` — never
`Allowed` or `Denied`. -/
theorem no_match_requires_approval (m : Matcher) (e : SafetyPatternEngine)
    (command : String)
    (hd : ∀ p ∈ e.deny_patterns, m (pyStrip command) p.pattern = false)
    (ha : ∀ p ∈ e.allow_patterns, m (pyStrip command) p.pattern = false) :
    (validate_command m e command).result = ValidationResult.requires_approval := by
  have hdg : findMatchingPattern m (pyStrip command)
      (e.deny_patterns.filter (fun p => !(strStartsWithCaret p.pattern))) = none := by
    simp only [findMatchingPattern, List.find?_eq_none]
    intro p hp
    simp [hd p (List.mem_filter.1 hp).1]
  have hdr : findMatchingPattern m (pyStrip command)
      (e.deny_patterns.filter (fun p => strStartsWithCaret p.pattern)) = none := by
    simp only [findMatchingPattern, List.find?_eq_none]
    intro p hp
    simp [hd p (List.mem_filter.1 hp).1]
  have hden : checkDenyPatterns m e (pyStrip command) = none := by
    simp [checkDenyPatterns, hdg, hdr, chooseDenyPattern]
  have hal : checkAllowPatterns m e (pyStrip command) = none := by
    have hfind : e.allow_patterns.find? (fun p => m (pyStrip command) p.pattern) = none := by
      simp only [List.find?_eq_none]
      intro p hp
      simp [ha p hp]
    simp [checkAllowPatterns, hfind]
  simp [validate_command, hden, hal, createApprovalRequiredResult]

/-- Engine for the C2 witness. -/
def engineC2 : SafetyPatternEngine :=
  SafetyPatternEngine.mk
    [SafetyPattern.mk "ls" true "allow ls"]
    [SafetyPattern.mk "rm *" false "deny rm"]

/-- Witness for C2 at a concrete input: `echo hi` matches neither rule
and the verdict is RequiresApproval. -/
theorem no_match_requires_approval_witness :
    (∀ p ∈ engineC2.deny_patterns,
        matchesPattern (pyStrip "echo hi") p.pattern = false) ∧
      (∀ p ∈ engineC2.allow_patterns,
        matchesPattern (pyStrip "echo hi") p.pattern = false) ∧
      (validate_command matchesPattern engineC2 "echo hi").result =
        ValidationResult.requires_approval :=
  ⟨by decide, by decide,
    no_match_requires_approval matchesPattern engineC2 "echo hi"
      (by decide) (by decide)⟩

/-- Modelled from the words of claim C5: partition the deny rules into
regex-like (pattern begins with `^`, ends with `$`, or contains a regex
metacharacter — the full `_is_regex_pattern` sniff) and glob-like
(everything else), find the first matching rule of each partition, and
when both partitions produce a match pick the regex-like one exactly
when the command contains `--`. -/
def claimDenyChoice (m : Matcher) (e : SafetyPatternEngine)
    (command : String) : Option SafetyPattern :=
  let regexLike := e.deny_patterns.filter (fun p => isRegexPattern p.pattern)
  let globLike := e.deny_patterns.filter (fun p => !(isRegexPattern p.pattern))
  match globLike.find? (fun p => m command p.pattern),
        regexLike.find? (fun p => m command p.pattern) with
  | some g, some r => if containsSub command "--" then some r else some g
  | some g, none => some g
  | none, some r => some r
  | none, none => none

/-- The choice procedure the code actually performs, written from the
amended wording of claim C5: the deny partition criterion is only
"pattern begins with `^`"; a pattern that merely ends with `$` or
contains a metacharacter goes to the glob partition (though it is still
matched with regex semantics by `_matches_pattern`). -/
def denyChoiceAmended (m : Matcher) (e : SafetyPatternEngine)
    (command : String) : Option SafetyPattern :=
  let regexPart := e.deny_patterns.filter (fun p => strStartsWithCaret p.pattern)
  let globPart := e.deny_patterns.filter (fun p => !(strStartsWithCaret p.pattern))
  match globPart.find? (fun p => m command p.pattern),
        regexPart.find? (fun p => m command p.pattern) with
  | some g, some r => if containsSub command "--" then some r else some g
  | some g, none => some g
  | none, some r => some r
  | none, none => none

/-- Engine for the C5 counterexample: the pattern `rm x$` ends with `$`
(regex-like per the claim) but does not start with `^` (glob partition
per the code). -/
def engineC5 : SafetyPatternEngine :=
  SafetyPatternEngine.mk []
    [SafetyPattern.mk "rm x$" false "a",
     SafetyPattern.mk "rm *" false "b"]

/-- Counterexample to C5 as stated: on `rm x` (no `--` token) the code
reports the deny match `rm x$` — both rules land in the code's glob
partition (neither starts with `^`) and `rm x$` comes first — while the
claim's partition puts `rm x$` in the regex partition and `rm *` in the
glob partition and its tie-break selects `rm *`. -/
theorem deny_partition_counterexample :
    (validate_command matchesPattern engineC5 "rm x").matched_pattern =
        some (SafetyPattern.mk "rm x$" false "a") ∧
      claimDenyChoice matchesPattern engineC5 (pyStrip "rm x") =
        some (SafetyPattern.mk "rm *" false "b") ∧
      SafetyPattern.mk "rm x$" false "a" ≠ SafetyPattern.mk "rm *" false "b" := by
  refine ⟨by decide, by decide, by decide⟩

/-- C5 amended: the deny check of `validate_command` partitions the deny
rules by whether the pattern begins with `^` (not by the full
regex-like sniff), finds the first matching rule of each partition, and
when both partitions produce a match chooses the caret partition's match
exactly when the command contains `--`, otherwise the other partition's
match; the result is wrapped as a Denied validation. -/
theorem deny_check_partitions_by_caret (m : Matcher) (e : SafetyPatternEngine)
    (command : String) :
    checkDenyPatterns m e command =
      (denyChoiceAmended m e command).map (denyValidation command) := by
  unfold checkDenyPatterns denyChoiceAmended findMatchingPattern chooseDenyPattern
  cases (e.deny_patterns.filter (fun p => !(strStartsWithCaret p.pattern))).find?
      (fun p => m command p.pattern) <;>
    cases (e.deny_patterns.filter (fun p => strStartsWithCaret p.pattern)).find?
      (fun p => m command p.pattern) <;>
    simp

/-- Modelled from the words of claim C6: the spec's keyword ladder over
the rule's pattern text — `rm -rf`, `sudo rm`, `format`, `dd if=`,
`chmod 777`, `mkfs` give Critical; otherwise `sudo`, `rm`, `del`,
`chmod`, `chown`, `mv` give High; otherwise `git reset`, `git clean`,
`npm install`, `pip install` give Medium; otherwise Low. -/
def claimRiskLadder (pat : String) : String :=
  if containsSub pat "rm -rf" || containsSub pat "sudo rm" ||
      containsSub pat "format" || containsSub pat "dd if=" ||
      containsSub pat "chmod 777" || containsSub pat "mkfs" then "critical"
  else if containsSub pat "sudo" || containsSub pat "rm" ||
      containsSub pat "del" || containsSub pat "chmod" ||
      containsSub pat "chown" || containsSub pat "mv" then "high"
  else if containsSub pat "git reset" || containsSub pat "git clean" ||
      containsSub pat "npm install" || containsSub pat "pip install" then "medium"
  else "low"

/-- The keyword ladder written from the amended wording of claim C6, over
the lowercased pattern text: `rm -rf`, `format`, `dd if=`, `sudo rm`,
`del /s`, `rmdir /s`, `> /dev/`, `chmod 777`, `chown`, `mkfs` give
Critical; otherwise `sudo`, `rm`, `del`, `rmdir`, `chmod`, `mv` give
High; otherwise `git reset`, `git clean`, `npm install`, `pip install`
give Medium; otherwise Low. -/
def amendedRiskLadder (pat : String) : String :=
  let t := pyLower pat
  if containsSub t "rm -rf" || containsSub t "format" ||
      containsSub t "dd if=" || containsSub t "sudo rm" ||
      containsSub t "del /s" || containsSub t "rmdir /s" ||
      containsSub t "> /dev/" || containsSub t "chmod 777" ||
      containsSub t "chown" || containsSub t "mkfs" then "critical"
  else if containsSub t "sudo" || containsSub t "rm" ||
      containsSub t "del" || containsSub t "rmdir" ||
      containsSub t "chmod" || containsSub t "mv" then "high"
  else if containsSub t "git reset" || containsSub t "git clean" ||
      containsSub t "npm install" || containsSub t "pip install" then "medium"
  else "low"

/-- The source risk ladder agrees with the amended wording. -/
theorem assessRiskLevel_eq_amended (p : SafetyPattern) :
    assessRiskLevel p = amendedRiskLadder p.pattern := by
  simp [assessRiskLevel, amendedRiskLadder, criticalKeywords, highRiskKeywords,
    mediumRiskKeywords, or_assoc]

/-- Engine for the C6 counterexample: a deny rule whose pattern contains
`chown` and none of the claim's Critical keywords. -/
def engineC6 : SafetyPatternEngine :=
  SafetyPatternEngine.mk []
    [SafetyPattern.mk "chown *" false "deny chown"]

/-- Counterexample to C6 as stated: the deny pattern `chown *` contains
`chown` and none of `rm -rf`, `sudo rm`, `format`, `dd if=`,
`chmod 777`, `mkfs`, so the claim's ladder classifies it High, but the
code's critical keyword list also contains `chown` and the reported risk
is `critical`. -/
theorem risk_ladder_counterexample :
    (validate_command matchesPattern engineC6 "chown x").result =
        ValidationResult.denied ∧
      (validate_command matchesPattern engineC6 "chown x").risk_level = "critical" ∧
      claimRiskLadder "chown *" = "high" ∧
      ("critical" : String) ≠ "high" := by
  refine ⟨by decide, by decide, by decide, by decide⟩

/-- C6 amended: for every deny rule chosen as the match, the risk
reported in the Validation follows the code's keyword ladder over the
lowercased rule pattern: `rm -rf`, `format`, `dd if=`, `sudo rm`,
`del /s`, `rmdir /s`, `> /dev/`, `chmod 777`, `chown`, `mkfs` give
Critical; otherwise `sudo`, `rm`, `del`, `rmdir`, `chmod`, `mv` give
High; otherwise `git reset`, `git clean`, `npm install`, `pip install`
give Medium; otherwise Low. -/
theorem denied_risk_follows_code_ladder (m : Matcher) (e : SafetyPatternEngine)
    (command : String) (p : SafetyPattern)
    (hres : (validate_command m e command).result = ValidationResult.denied)
    (hmp : (validate_command m e command).matched_pattern = some p) :
    (validate_command m e command).risk_level = amendedRiskLadder p.pattern := by
  unfold validate_command at hres hmp ⊢
  cases hden : checkDenyPatterns m e (pyStrip command) with
  | some v =>
    obtain ⟨q, _, hq⟩ := Option.map_eq_some'.1 hden
    subst hq
    simp [hden, denyValidation] at hmp ⊢
    subst hmp
    exact assessRiskLevel_eq_amended q
  | none =>
    cases hal : checkAllowPatterns m e (pyStrip command) with
    | some v =>
      obtain ⟨q, _, hq⟩ := Option.map_eq_some'.1 hal
      subst hq
      simp [hden, hal, allowValidation] at hres
    | none =>
      simp [hden, hal, createApprovalRequiredResult] at hres

/-- Witness for the amended C6 at a concrete input: the denied `chown x`
command's reported risk equals the amended ladder's value for the
matched rule `chown *`. -/
theorem denied_risk_follows_code_ladder_witness :
    (validate_command matchesPattern engineC6 "chown x").result =
        ValidationResult.denied ∧
      (validate_command matchesPattern engineC6 "chown x").matched_pattern =
        some (SafetyPattern.mk "chown *" false "deny chown") ∧
      (validate_command matchesPattern engineC6 "chown x").risk_level =
        amendedRiskLadder "chown *" :=
  ⟨by decide, by decide,
    denied_risk_follows_code_ladder matchesPattern engineC6 "chown x"
      (SafetyPattern.mk "chown *" false "deny chown") (by decide) (by decide)⟩

/-- Engine for the C9 counterexample: the deny glob `*` matches every
string, including the empty one. -/
def engineC9 : SafetyPatternEngine :=
  SafetyPatternEngine.mk []
    [SafetyPattern.mk "*" false "deny everything"]

/-- Counterexample to C9 as stated: with the deny rule `*`, a
whitespace-only command trims to the empty string, which the glob `*`
matches, so the verdict is Denied rather than RequiresApproval. -/
theorem empty_command_counterexample :
    (validate_command matchesPattern engineC9 "   ").result =
        ValidationResult.denied ∧
      (validate_command matchesPattern engineC9 "   ").result ≠
        ValidationResult.requires_approval := by
  refine ⟨by decide, by decide⟩

/-- C9 amended: an empty or whitespace-only command trims to the empty
string and proceeds through the normal pipeline; provided no deny and no
allow rule matches the empty string, the verdict is RequiresApproval
with risk Low. -/
theorem empty_command_requires_approval (m : Matcher) (e : SafetyPatternEngine)
    (command : String)
    (htrim : pyStrip command = "")
    (hd : ∀ p ∈ e.deny_patterns, m "" p.pattern = false)
    (ha : ∀ p ∈ e.allow_patterns, m "" p.pattern = false) :
    (validate_command m e command).result = ValidationResult.requires_approval ∧
      (validate_command m e command).risk_level = "low" := by
  have hdg : findMatchingPattern m (pyStrip command)
      (e.deny_patterns.filter (fun p => !(strStartsWithCaret p.pattern))) = none := by
    simp only [findMatchingPattern, List.find?_eq_none, htrim]
    intro p hp
    simp [hd p (List.mem_filter.1 hp).1]
  have hdr : findMatchingPattern m (pyStrip command)
      (e.deny_patterns.filter (fun p => strStartsWithCaret p.pattern)) = none := by
    simp only [findMatchingPattern, List.find?_eq_none, htrim]
    intro p hp
    simp [hd p (List.mem_filter.1 hp).1]
  have hden : checkDenyPatterns m e (pyStrip command) = none := by
    simp [checkDenyPatterns, hdg, hdr, chooseDenyPattern]
  have hal : checkAllowPatterns m e (pyStrip command) = none := by
    have hfind : e.allow_patterns.find? (fun p => m (pyStrip command) p.pattern) = none := by
      simp only [List.find?_eq_none, htrim]
      intro p hp
      simp [ha p hp]
    simp [checkAllowPatterns, hfind]
  have hrisk : assessCommandRisk "" = "low" := by decide
  rw [htrim] at hden hal
  constructor
  · simp [validate_command, htrim, hden, hal, createApprovalRequiredResult]
  · simp [validate_command, htrim, hden, hal, createApprovalRequiredResult, hrisk]

/-- Engine for the C9 witness: neither rule matches the empty string. -/
def engineC9w : SafetyPatternEngine :=
  SafetyPatternEngine.mk
    [SafetyPattern.mk "git status" true "allow git status"]
    [SafetyPattern.mk "rm *" false "deny rm"]

/-- Witness for the amended C9 at a concrete input: a whitespace-only
command with a rule set none of whose rules matches the empty string. -/
theorem empty_command_requires_approval_witness :
    pyStrip "   " = "" ∧
      (∀ p ∈ engineC9w.deny_patterns, matchesPattern "" p.pattern = false) ∧
      (∀ p ∈ engineC9w.allow_patterns, matchesPattern "" p.pattern = false) ∧
      (validate_command matchesPattern engineC9w "   ").result =
        ValidationResult.requires_approval ∧
      (validate_command matchesPattern engineC9w "   ").risk_level = "low" :=
  ⟨by decide, by decide, by decide,
    empty_command_requires_approval matchesPattern engineC9w "   "
      (by decide) (by decide) (by decide)⟩

/-- `ApprovalScope` from `validator.py`. -/
inductive ApprovalScope where
  | once
  | session
  | persistent
deriving DecidableEq

/-- A Python `dict` from command strings to scopes, as an insertion-order
association list with unique keys: setting an existing key updates it in
place, setting a new key appends. -/
def dictSet (d : List (String × ApprovalScope)) (k : String)
    (v : ApprovalScope) : List (String × ApprovalScope) :=
  if d.any (fun p => p.1 == k) then
    d.map (fun p => if p.1 == k then (k, v) else p)
  else d ++ [(k, v)]

/-- `dict.get k`. -/
def dictGet (d : List (String × ApprovalScope)) (k : String) :
    Option ApprovalScope :=
  (d.find? (fun p => p.1 == k)).map Prod.snd

/-- `dict.pop(k, None)`. -/
def dictPop (d : List (String × ApprovalScope)) (k : String) :
    List (String × ApprovalScope) :=
  d.filter (fun p => p.1 != k)

/-- `InMemoryApprovalStore` from `approvals.py`: a plain in-process
dict. -/
structure InMemoryApprovalStore where
  approvals : List (String × ApprovalScope)
deriving DecidableEq

/-- `InMemoryApprovalStore.add_approval`. -/
def InMemoryApprovalStore.add_approval (st : InMemoryApprovalStore)
    (command : String) (scope : ApprovalScope) : InMemoryApprovalStore :=
  InMemoryApprovalStore.mk (dictSet st.approvals command scope)

/-- `InMemoryApprovalStore.has_approval`. -/
def InMemoryApprovalStore.has_approval (st : InMemoryApprovalStore)
    (command : String) : Bool :=
  st.approvals.any (fun p => p.1 == command)

/-- `InMemoryApprovalStore.remove_approval`. -/
def InMemoryApprovalStore.remove_approval (st : InMemoryApprovalStore)
    (command : String) : InMemoryApprovalStore :=
  InMemoryApprovalStore.mk (dictPop st.approvals command)

/-- `InMemoryApprovalStore.get_all_approvals`. -/
def InMemoryApprovalStore.get_all_approvals (st : InMemoryApprovalStore) :
    List (String × ApprovalScope) :=
  st.approvals

/-- The content of the durable store file at `store_path`: absent,
present but unparseable (bad JSON, or a scope string `ApprovalScope`
rejects — both caught by `_load`), or present with a parseable record
map. -/
inductive FileState where
  | missing
  | corrupt
  | data : List (String × ApprovalScope) → FileState
deriving DecidableEq

/-- The records `PersistentApprovalStore._save` writes: only the
`PERSISTENT`-scoped entries of the in-memory dict. -/
def persistFilter (l : List (String × ApprovalScope)) :
    List (String × ApprovalScope) :=
  l.filter (fun p => p.2 == ApprovalScope.persistent)

/-- `PersistentApprovalStore` from `approvals.py`: the in-memory dict
plus the durable file it reads and writes. -/
structure PersistentApprovalStore where
  approvals : List (String × ApprovalScope)
  file : FileState
deriving DecidableEq

/-- `PersistentApprovalStore._load` applied to the current in-memory
dict: a missing file leaves it unchanged, an unparseable file resets it
to empty (the `except` branch), a parseable file replaces it. -/
def loadMem (file : FileState) (cur : List (String × ApprovalScope)) :
    List (String × ApprovalScope) :=
  match file with
  | FileState.missing => cur
  | FileState.corrupt => []
  | FileState.data m => m

/-- `PersistentApprovalStore.__init__`: start with an empty dict and run
`_load` against the file at the store path.  Every branch of `_load` is
total here — the JSON and scope parse failures are caught in the
source — so construction never raises. -/
def PersistentApprovalStore.construct (file : FileState) :
    PersistentApprovalStore :=
  PersistentApprovalStore.mk (loadMem file []) file

/-- `PersistentApprovalStore.add_approval`: update the dict, and rewrite
the durable file (via `_save`) only when the new scope is
`PERSISTENT`. -/
def PersistentApprovalStore.add_approval (st : PersistentApprovalStore)
    (command : String) (scope : ApprovalScope) : PersistentApprovalStore :=
  let mem := dictSet st.approvals command scope
  if scope == ApprovalScope.persistent then
    PersistentApprovalStore.mk mem (FileState.data (persistFilter mem))
  else
    PersistentApprovalStore.mk mem st.file

/-- `PersistentApprovalStore.has_approval`. -/
def PersistentApprovalStore.has_approval (st : PersistentApprovalStore)
    (command : String) : Bool :=
  st.approvals.any (fun p => p.1 == command)

/-- `PersistentApprovalStore.remove_approval`: pop from the dict and
rewrite the durable file. -/
def PersistentApprovalStore.remove_approval (st : PersistentApprovalStore)
    (command : String) : PersistentApprovalStore :=
  let mem := dictPop st.approvals command
  PersistentApprovalStore.mk mem (FileState.data (persistFilter mem))

/-- `PersistentApprovalStore.get_all_approvals`. -/
def PersistentApprovalStore.get_all_approvals (st : PersistentApprovalStore) :
    List (String × ApprovalScope) :=
  st.approvals

/-- The two synchronous store kinds `ConsoleApprovalManager` recognizes
in its synchronous paths (`isinstance(self.store, (InMemoryApprovalStore,
PersistentApprovalStore))`). -/
inductive SyncStore where
  | inMem : InMemoryApprovalStore → SyncStore
  | persist : PersistentApprovalStore → SyncStore
deriving DecidableEq

/-- Store-kind dispatch of `has_approval`. -/
def SyncStore.has_approval : SyncStore → String → Bool
  | SyncStore.inMem st, c => st.has_approval c
  | SyncStore.persist st, c => st.has_approval c

/-- Store-kind dispatch of `get_all_approvals`. -/
def SyncStore.get_all_approvals : SyncStore → List (String × ApprovalScope)
  | SyncStore.inMem st => st.get_all_approvals
  | SyncStore.persist st => st.get_all_approvals

/-- `isinstance(store, InMemoryApprovalStore)`. -/
def SyncStore.isInMemoryStore : SyncStore → Bool
  | SyncStore.inMem _ => true
  | SyncStore.persist _ => false

/-- Store-kind dispatch of `remove_approval`. -/
def SyncStore.remove_approval : SyncStore → String → SyncStore
  | SyncStore.inMem st, c => SyncStore.inMem (st.remove_approval c)
  | SyncStore.persist st, c => SyncStore.persist (st.remove_approval c)

/-- Store-kind dispatch of `add_approval`. -/
def SyncStore.add_approval : SyncStore → String → ApprovalScope → SyncStore
  | SyncStore.inMem st, c, s => SyncStore.inMem (st.add_approval c s)
  | SyncStore.persist st, c, s => SyncStore.persist (st.add_approval c s)

/-- `ConsoleApprovalManager.check_approval` on its synchronous path: the
returned flag and the store as the call leaves it.  The record is
removed only when its scope is `ONCE` and the store is an
`InMemoryApprovalStore` (the source guards the removal with
`isinstance(self.store, InMemoryApprovalStore)`). -/
def check_approval (store : SyncStore) (command : String) : Bool × SyncStore :=
  let has := store.has_approval command
  if has then
    let scope := dictGet store.get_all_approvals command
    if scope == some ApprovalScope.once && store.isInMemoryStore then
      (has, store.remove_approval command)
    else (has, store)
  else (has, store)

/-- `ConsoleApprovalManager.handle_approval_request`: store the approval
and report success. -/
def handle_approval_request (store : SyncStore) (command : String)
    (scope : ApprovalScope) : Bool × SyncStore :=
  (true, store.add_approval command scope)

/-- `ConsoleApprovalManager._should_clear_approval`. -/
def shouldClearApproval (scope : ApprovalScope) : Bool :=
  scope == ApprovalScope.session || scope == ApprovalScope.once

/-- `ConsoleApprovalManager.clear_session_approvals`: iterate over a
snapshot of the store's records and remove each whose scope should be
cleared — but only when the store is an `InMemoryApprovalStore` (the
inner `isinstance` guard of the source). -/
def clear_session_approvals (store : SyncStore) : SyncStore :=
  store.get_all_approvals.foldl
    (fun acc p =>
      if shouldClearApproval p.2 && acc.isInMemoryStore then
        acc.remove_approval p.1
      else acc)
    store

/-- An in-memory manager store holding a single `ONCE` approval for
`x`, granted through `handle_approval_request`. -/
def memStoreC3 : SyncStore :=
  (handle_approval_request (SyncStore.inMem (InMemoryApprovalStore.mk []))
    "x" ApprovalScope.once).2

/-- A persistent manager store holding a single `ONCE` approval for
`x`, granted through `handle_approval_request`. -/
def persStoreC3 : SyncStore :=
  (handle_approval_request
    (SyncStore.persist (PersistentApprovalStore.construct FileState.missing))
    "x" ApprovalScope.once).2

/-- C3 (the code at the failing input): with an in-memory store a `ONCE`
approval is consumed by the first `check_approval` — the first check
returns true and the second false — but with a persistent store the
removal is skipped (the source's `isinstance(self.store,
InMemoryApprovalStore)` guard fails), the store is left unchanged, and
the second identical check also returns true, contradicting the claim
for persistent stores. -/
theorem once_not_consumed_on_persistent_store :
    (check_approval memStoreC3 "x").1 = true ∧
      (check_approval (check_approval memStoreC3 "x").2 "x").1 = false ∧
      (check_approval persStoreC3 "x").1 = true ∧
      (check_approval persStoreC3 "x").2 = persStoreC3 ∧
      (check_approval (check_approval persStoreC3 "x").2 "x").1 = true := by
  refine ⟨by decide, by decide, by decide, by decide, by decide⟩

/-- A persistent manager store holding a Session, a Once and a
Persistent approval. -/
def persStoreC4 : SyncStore :=
  SyncStore.persist
    ((((PersistentApprovalStore.construct FileState.missing).add_approval
        "a" ApprovalScope.session).add_approval
        "b" ApprovalScope.once).add_approval
        "c" ApprovalScope.persistent)

/-- C4 (the code at the failing input): on an in-memory store
`clear_session_approvals` removes the Session and Once records and keeps
the Persistent one, but on a persistent store it removes nothing at all
(the inner `isinstance(store, InMemoryApprovalStore)` guard fails for
every record), leaving the Session and Once records in place,
contradicting the claim for persistent stores. -/
theorem clear_session_noop_on_persistent_store :
    clear_session_approvals
        (SyncStore.inMem (InMemoryApprovalStore.mk
          [("a", ApprovalScope.session), ("b", ApprovalScope.once),
           ("c", ApprovalScope.persistent)])) =
      SyncStore.inMem (InMemoryApprovalStore.mk [("c", ApprovalScope.persistent)]) ∧
      clear_session_approvals persStoreC4 = persStoreC4 ∧
      (clear_session_approvals persStoreC4).has_approval "a" = true ∧
      (clear_session_approvals persStoreC4).has_approval "b" = true := by
  refine ⟨by decide, by decide, by decide, by decide⟩

/-- C8: constructing the durable store over an existing but unparseable
file succeeds (every branch of the embedded `_load` is total, matching
the source's `except (json.JSONDecodeError, ValueError)` recovery) and
the freshly constructed store lists no approvals. -/
theorem corrupt_file_constructs_empty_store :
    (PersistentApprovalStore.construct FileState.corrupt).get_all_approvals = [] := by
  decide

/-- C10: `PersistentApprovalStore.add_approval` writes the durable file
only for `Persistent` scope — for any store state, adding at a
non-Persistent scope leaves the file untouched — and consequently
re-granting a command at Session or Once scope after a Persistent grant
keeps the old durable entry, so a store reconstructed from the same path
still reports that command approved at Persistent scope. -/
theorem nonpersistent_add_leaves_file :
    (∀ (st : PersistentApprovalStore) (c : String) (s : ApprovalScope),
        s ≠ ApprovalScope.persistent →
        (st.add_approval c s).file = st.file) ∧
      (∀ (c : String) (s : ApprovalScope), s ≠ ApprovalScope.persistent →
        (((PersistentApprovalStore.construct FileState.missing).add_approval c
            ApprovalScope.persistent).add_approval c s).file =
          FileState.data [(c, ApprovalScope.persistent)] ∧
        dictGet (PersistentApprovalStore.construct
            ((((PersistentApprovalStore.construct FileState.missing).add_approval c
              ApprovalScope.persistent).add_approval c s).file)).approvals c =
          some ApprovalScope.persistent) := by
  constructor
  · intro st c s h
    cases s with
    | persistent => exact absurd rfl h
    | once => rfl
    | session => rfl
  · intro c s h
    have hfile : (((PersistentApprovalStore.construct FileState.missing).add_approval c
        ApprovalScope.persistent).add_approval c s).file =
        FileState.data [(c, ApprovalScope.persistent)] := by
      have h1 : (((PersistentApprovalStore.construct FileState.missing).add_approval c
          ApprovalScope.persistent).add_approval c s).file =
          ((PersistentApprovalStore.construct FileState.missing).add_approval c
            ApprovalScope.persistent).file := by
        cases s with
        | persistent => exact absurd rfl h
        | once => rfl
        | session => rfl
      rw [h1]
      rfl
    refine ⟨hfile, ?_⟩
    rw [hfile]
    simp [PersistentApprovalStore.construct, loadMem, dictGet]

/-- Witness for C10 at concrete inputs: a Session add on an arbitrary
prior state leaves the (corrupt) file untouched, and after granting `x`
Persistent and then re-granting it Once, the reconstructed store still
reports `x` at Persistent scope. -/
theorem nonpersistent_add_leaves_file_witness :
    (ApprovalScope.session ≠ ApprovalScope.persistent) ∧
      ((PersistentApprovalStore.mk [("y", ApprovalScope.once)]
          FileState.corrupt).add_approval "x" ApprovalScope.session).file =
        FileState.corrupt ∧
      dictGet (PersistentApprovalStore.construct
          ((((PersistentApprovalStore.construct FileState.missing).add_approval "x"
            ApprovalScope.persistent).add_approval "x" ApprovalScope.once).file)).approvals
          "x" =
        some ApprovalScope.persistent :=
  ⟨by decide,
    nonpersistent_add_leaves_file.1
      (PersistentApprovalStore.mk [("y", ApprovalScope.once)] FileState.corrupt)
      "x" ApprovalScope.session (by decide),
    (nonpersistent_add_leaves_file.2 "x" ApprovalScope.once (by decide)).2⟩

/-- A sequence of `add_approval` calls against a persistent store. -/
def foldGrants (st : PersistentApprovalStore)
    (gs : List (String × ApprovalScope)) : PersistentApprovalStore :=
  gs.foldl (fun s g => s.add_approval g.1 g.2) st

/-- Setting a key not present in the dict appends it. -/
theorem dictSet_fresh (d : List (String × ApprovalScope)) (c : String)
    (v : ApprovalScope) (h : d.any (fun p => p.1 == c) = false) :
    dictSet d c v = d ++ [(c, v)] := by
  simp [dictSet, h]

/-- Characterization of a grant sequence over pairwise-distinct commands
starting from any store state none of whose keys occurs in the sequence:
the in-memory dict accumulates the grants in order, and the durable file
is rewritten to the Persistent-filtered dict if any grant is Persistent,
else untouched. -/
theorem foldGrants_spec (gs : List (String × ApprovalScope)) :
    ∀ (mem : List (String × ApprovalScope)) (file : FileState),
    (gs.map Prod.fst).Nodup →
    (∀ c ∈ gs.map Prod.fst, mem.any (fun p => p.1 == c) = false) →
    foldGrants (PersistentApprovalStore.mk mem file) gs =
      PersistentApprovalStore.mk (mem ++ gs)
        (if gs.any (fun g => g.2 == ApprovalScope.persistent) then
          FileState.data (persistFilter (mem ++ gs))
         else file) := by
  induction gs with
  | nil =>
    intro mem file _ _
    simp [foldGrants]
  | cons g rest ih =>
    intro mem file hnd hfresh
    obtain ⟨c, s⟩ := g
    have hcfresh : mem.any (fun p => p.1 == c) = false := hfresh c (by simp)
    have hnotin : c ∉ rest.map Prod.fst := (List.nodup_cons.1 (by simpa using hnd)).1
    have hndrest : (rest.map Prod.fst).Nodup := (List.nodup_cons.1 (by simpa using hnd)).2
    have hfresh2 : ∀ c2 ∈ rest.map Prod.fst,
        (mem ++ [(c, s)]).any (fun p => p.1 == c2) = false := by
      intro c2 hc2
      have hne : (c == c2) = false := by
        refine beq_eq_false_iff_ne.2 ?_
        intro hcc
        exact hnotin (hcc ▸ hc2)
      simp [List.any_append, hfresh c2 (by simp [hc2]), hne]
    have hstep : foldGrants (PersistentApprovalStore.mk mem file) ((c, s) :: rest) =
        foldGrants ((PersistentApprovalStore.mk mem file).add_approval c s) rest := rfl
    by_cases hs : s = ApprovalScope.persistent
    · subst hs
      have hadd : (PersistentApprovalStore.mk mem file).add_approval c
          ApprovalScope.persistent =
          PersistentApprovalStore.mk (mem ++ [(c, ApprovalScope.persistent)])
            (FileState.data (persistFilter (mem ++ [(c, ApprovalScope.persistent)]))) := by
        simp [PersistentApprovalStore.add_approval, dictSet_fresh _ _ _ hcfresh]
      rw [hstep, hadd, ih _ _ hndrest hfresh2]
      by_cases hrest : rest.any (fun g => g.2 == ApprovalScope.persistent) = true
      · simp [hrest, List.append_assoc]
      · have hrestf : rest.any (fun g => g.2 == ApprovalScope.persistent) = false :=
          Bool.eq_false_iff.2 hrest
        have hfilterrest : List.filter (fun p => p.2 == ApprovalScope.persistent) rest = [] :=
          List.filter_eq_nil_iff.2 (List.any_eq_false.1 hrestf)
        have hpf : persistFilter (mem ++ (c, ApprovalScope.persistent) :: rest) =
            persistFilter (mem ++ [(c, ApprovalScope.persistent)]) := by
          simp [persistFilter, List.filter_append, List.filter_cons, hfilterrest]
        simp [hrestf, List.append_assoc, hpf]
    · have hsb : (s == ApprovalScope.persistent) = false := beq_eq_false_iff_ne.2 hs
      have hadd : (PersistentApprovalStore.mk mem file).add_approval c s =
          PersistentApprovalStore.mk (mem ++ [(c, s)]) file := by
        simp [PersistentApprovalStore.add_approval, hsb, dictSet_fresh _ _ _ hcfresh]
      rw [hstep, hadd, ih _ _ hndrest hfresh2]
      cases hrest2 : rest.any (fun g => g.2 == ApprovalScope.persistent) <;>
        simp [hrest2, hsb, List.append_assoc]

/-- C7 amended: for every sequence of `add_approval` calls in which no
command is granted twice, reconstructing a `PersistentApprovalStore`
from the same path yields exactly the approvals granted with Persistent
scope; approvals granted with Session or Once scope do not appear after
reconstruction. -/
theorem persistence_roundtrip (gs : List (String × ApprovalScope))
    (hnd : (gs.map Prod.fst).Nodup) :
    (PersistentApprovalStore.construct
        (foldGrants (PersistentApprovalStore.construct FileState.missing) gs).file).get_all_approvals
      = gs.filter (fun g => g.2 == ApprovalScope.persistent) := by
  have h := foldGrants_spec gs [] FileState.missing hnd (by intro c _; rfl)
  have hcon : PersistentApprovalStore.construct FileState.missing =
      PersistentApprovalStore.mk [] FileState.missing := rfl
  rw [hcon, h]
  by_cases hany : gs.any (fun g => g.2 == ApprovalScope.persistent) = true
  · simp [hany, PersistentApprovalStore.construct, loadMem,
      PersistentApprovalStore.get_all_approvals, persistFilter]
  · have hanyf : gs.any (fun g => g.2 == ApprovalScope.persistent) = false :=
      Bool.eq_false_iff.2 hany
    have hfilter : gs.filter (fun g => g.2 == ApprovalScope.persistent) = [] :=
      List.filter_eq_nil_iff.2 (List.any_eq_false.1 hanyf)
    simp [hanyf, PersistentApprovalStore.construct, loadMem,
      PersistentApprovalStore.get_all_approvals, hfilter]

/-- Grant sequence for the C7 counterexample: `x` is granted Persistent,
re-granted Once, then `y` is granted Persistent (which rewrites the file
from the in-memory dict, in which `x` is now Once-scoped). -/
def grantsC7 : List (String × ApprovalScope) :=
  [("x", ApprovalScope.persistent), ("x", ApprovalScope.once),
   ("y", ApprovalScope.persistent)]

/-- Counterexample to C7 as stated: in the sequence `grantsC7` the
command `x` is granted with Persistent scope, yet a store reconstructed
from the same path afterwards does not report `x` approved at all. -/
theorem persistence_roundtrip_counterexample :
    ("x", ApprovalScope.persistent) ∈ grantsC7 ∧
      (PersistentApprovalStore.construct
          (foldGrants (PersistentApprovalStore.construct FileState.missing)
            grantsC7).file).has_approval "x" = false := by
  refine ⟨by decide, by decide⟩

/-- Grant sequence for the C7 witness: three distinct commands at the
three scopes. -/
def grantsC7w : List (String × ApprovalScope) :=
  [("a", ApprovalScope.persistent), ("b", ApprovalScope.session),
   ("c", ApprovalScope.once)]

/-- Witness for the amended C7 at a concrete input. -/
theorem persistence_roundtrip_witness :
    (grantsC7w.map Prod.fst).Nodup ∧
      (PersistentApprovalStore.construct
          (foldGrants (PersistentApprovalStore.construct FileState.missing)
            grantsC7w).file).get_all_approvals
        = grantsC7w.filter (fun g => g.2 == ApprovalScope.persistent) :=
  ⟨by decide, persistence_roundtrip grantsC7w (by decide)⟩

end Mentat
